import Mathlib

/-!
# Verification of the PowerGenome generator-clustering pipeline

Shallow embedding of `src/powergenome/generators.py`: the record-removal
helpers, the heat-rate banding and fallback logic, the per-cluster
aggregation, the final capacity derivation, the fuel-label error paths and
the active/retired split, together with theorems settling the spec claims.

Numeric table values are modelled as rationals; a pandas `NaN` entry is
modelled as `Option.none`, and pandas comparisons with `NaN` (which are
always `False`) are embedded accordingly.
-/

namespace PowerGenome

/-! ## Generator rows and the canceled/retired removal helpers

Embeds `create_plant_gen_id` (generators.py lines 834-838),
`remove_canceled_860m` (lines 841-868), `remove_retired_860m`
(lines 871-899) and `remove_future_retirements_860m` (lines 902-930).
A dataframe is a list of rows; only the columns the functions touch are
modelled. -/

/-- A generator row as used by the 860m removal helpers: the join-key
columns and the capacity column tracked by the capacity-sum claims. -/
structure Gen where
  plant_id_eia : Nat
  generator_id : String
  capacity : ℚ
deriving Repr, DecidableEq

/-- `create_plant_gen_id`: the synthetic join key
`str(plant_id_eia) + "_" + str(generator_id)` (lines 834-836). -/
def plant_gen_id (g : Gen) : String :=
  toString g.plant_id_eia ++ "_" ++ g.generator_id

/-- The keys present in an amendment table. -/
def amendment_keys (am : List Gen) : List String :=
  am.map plant_gen_id

/-- The rows of `df` whose synthetic key appears in the canceled table
(`canceled` at line 859). -/
def canceled_rows (df am : List Gen) : List Gen :=
  df.filter (fun g => decide (plant_gen_id g ∈ amendment_keys am))

/-- `remove_canceled_860m` (lines 841-868): keep the rows whose synthetic
key is not in the canceled table (`not_canceled_df` at line 861). -/
def remove_canceled_860m (df am : List Gen) : List Gen :=
  df.filter (fun g => !decide (plant_gen_id g ∈ amendment_keys am))

/-- The rows of `df` whose synthetic key appears in the retired table
(`retired` at line 890). -/
def retired_rows (df am : List Gen) : List Gen :=
  df.filter (fun g => decide (plant_gen_id g ∈ amendment_keys am))

/-- `remove_retired_860m` (lines 871-899): identical anti-join against the
retired table (`not_retired_df` at line 892). -/
def remove_retired_860m (df am : List Gen) : List Gen :=
  df.filter (fun g => !decide (plant_gen_id g ∈ amendment_keys am))

/-- `remove_future_retirements_860m` (lines 902-930): the body is a verbatim
copy of `remove_retired_860m`. -/
def remove_future_retirements_860m (df am : List Gen) : List Gen :=
  df.filter (fun g => !decide (plant_gen_id g ∈ amendment_keys am))

/-- Total capacity of a table, `df[capacity_col].sum()`. -/
def capSum (df : List Gen) : ℚ :=
  (df.map Gen.capacity).sum

lemma length_filter_add_length_filter_not (p : Gen → Bool) (l : List Gen) :
    (l.filter p).length + (l.filter (fun g => !p g)).length = l.length := by
  induction l with
  | nil => simp
  | cons g l ih =>
    by_cases h : p g = true <;> simp [List.filter_cons, h] <;> omega

lemma capSum_filter_add_capSum_filter_not (p : Gen → Bool) (l : List Gen) :
    capSum (l.filter p) + capSum (l.filter (fun g => !p g)) = capSum l := by
  induction l with
  | nil => simp [capSum]
  | cons g l ih =>
    by_cases h : p g = true <;>
      simp [capSum, List.filter_cons, h] at * <;> linarith

/-! ## The active/retired split of the units model

Embeds the technology restriction of `units_model`
(`.query("technology.isin(@techs).values")`, generators.py line 2800), the
clustering-input selection (lines 2832-2836) and the retired table
(lines 2838-2840).  `retirement_year` may be `NaN`, modelled as `none`;
a pandas comparison of `NaN` with a number is `False`. -/

/-- A row of `units_model` as consumed by the active/retired split. -/
structure UnitRow where
  technology : String
  retirement_year : Option ℤ
  capacity : ℚ
deriving Repr, DecidableEq

/-- `retirement_year <= model_year` under pandas `NaN` semantics: `False`
whenever the retirement year is missing. -/
def leOptYear : Option ℤ → ℤ → Bool
  | none, _ => false
  | some r, y => r ≤ y

/-- `retirement_year > model_year` under pandas `NaN` semantics: `False`
whenever the retirement year is missing. -/
def gtOptYear : Option ℤ → ℤ → Bool
  | none, _ => false
  | some r, y => y < r

/-- The restriction of `units_model` to technologies configured in
`num_clusters` (`query("technology.isin(@techs).values")`, line 2800). -/
def filter_model_techs (techs : List String) (us : List UnitRow) : List UnitRow :=
  us.filter (fun u => decide (u.technology ∈ techs))

/-- The rows fed to `region_tech_grouped` (lines 2832-2836):
`technology.isin(techs) & ~(retirement_year <= model_year)`. -/
def clustering_input (techs : List String) (y : ℤ) (us : List UnitRow) : List UnitRow :=
  us.filter (fun u => decide (u.technology ∈ techs) && !leOptYear u.retirement_year y)

/-- `self.retired` (lines 2838-2840): `~(retirement_year > model_year)`. -/
def retired_units (y : ℤ) (us : List UnitRow) : List UnitRow :=
  us.filter (fun u => !gtOptYear u.retirement_year y)

/-! ## Heat-rate banding and fallback

Embeds the heat-rate imputation block of
`GeneratorClusters.create_region_technology_clusters`
(generators.py lines 2709-2743) together with the
`fill_na_heat_rates` method (lines 2520-2538).  A row of `units_model` is
indexed by `(plant_id_eia, prime_mover_code, energy_source_code_1)` and
carries an optional `heat_rate_mmbtu_mwh`; `prime_mover_hr_map`
(`plant_pm_heat_rates`, lines 1148-1174) is a finite map from that index
to a plant/prime-mover/fuel aggregate heat rate. -/

/-- A row of `units_model` during heat-rate processing. -/
structure HrUnit where
  plant_id_eia : Nat
  prime_mover_code : String
  energy_source_code : String
  technology : String
  heat_rate : Option ℚ
deriving Repr, DecidableEq

/-- The `(plant_id_eia, prime_mover_code, energy_source_code_1)` index of a
`units_model` row (`idx`, line 2692). -/
def hrKey (u : HrUnit) : Nat × String × String :=
  (u.plant_id_eia, u.prime_mover_code, u.energy_source_code)

/-- `prime_mover_hr_map` as an association list keyed by the
`units_model` index. -/
abbrev PmHrMap := List ((Nat × String × String) × ℚ)

/-- Dictionary lookup, `index.map(prime_mover_hr_map)`: `none` when the key
is absent (pandas maps a missing key to `NaN`). -/
def pmLookup (m : PmHrMap) (k : Nat × String × String) : Option ℚ :=
  (m.find? (fun p => p.1 = k)).map (·.2)

/-- Lines 2709-2715: rows with a null unit heat rate take the
plant/prime-mover/fuel aggregate from `prime_mover_hr_map`. -/
def fill_null_from_pm (m : PmHrMap) (u : HrUnit) : HrUnit :=
  match u.heat_rate with
  | none => { u with heat_rate := pmLookup m (hrKey u) }
  | some _ => u

/-- Lines 2717-2721: rows with heat rate above 35 are remapped through
`prime_mover_hr_map`. -/
def remap_high_hr (m : PmHrMap) (u : HrUnit) : HrUnit :=
  match u.heat_rate with
  | some v => if 35 < v then { u with heat_rate := pmLookup m (hrKey u) } else u
  | none => u

/-- Lines 2725-2732: a heat rate below 5 (other than exact 0) or above 35
is set to `NaN`; 0 is preserved. -/
def band_heat_rate (u : HrUnit) : HrUnit :=
  match u.heat_rate with
  | some v => if (v < 5 ∧ v ≠ 0) ∨ 35 < v then { u with heat_rate := none } else u
  | none => u

/-- The per-row composition of the three imputation steps applied before
the per-technology fill (lines 2709-2732 in program order). -/
def impute_row (m : PmHrMap) (u : HrUnit) : HrUnit :=
  band_heat_rate (remap_high_hr m (fill_null_from_pm m u))

/-- The rows after the null fill, the high remap and the banding
(lines 2709-2732), before the per-technology median fill. -/
def banded_units (m : PmHrMap) (us : List HrUnit) : List HrUnit :=
  us.map (impute_row m)

/-- The median of an (already sorted) list of values: the middle element
for an odd length, the mean of the two middle elements for an even length,
`NaN` for an empty list. -/
def medianOfSorted (vals : List ℚ) : Option ℚ :=
  if vals.length = 0 then none
  else if vals.length % 2 = 1 then vals.get? (vals.length / 2)
  else
    match vals.get? (vals.length / 2 - 1), vals.get? (vals.length / 2) with
    | some a, some b => some ((a + b) / 2)
    | _, _ => none

/-- `pandas.Series.median` over the non-null entries of a series. -/
def seriesMedian (s : List (Option ℚ)) : Option ℚ :=
  medianOfSorted ((s.filterMap id).insertionSort (· ≤ ·))

lemma medianOfSorted_isSome (vals : List ℚ) (h : vals ≠ []) :
    (medianOfSorted vals).isSome := by
  unfold medianOfSorted
  have hpos : 0 < vals.length := List.length_pos.mpr h
  rw [if_neg (Nat.pos_iff_ne_zero.mp hpos)]
  by_cases hodd : vals.length % 2 = 1
  · rw [if_pos hodd]
    have h2 : vals.length / 2 < vals.length := Nat.div_lt_self hpos (by norm_num)
    rw [List.get?_eq_get h2]
    rfl
  · rw [if_neg hodd]
    have h1 : vals.length / 2 - 1 < vals.length := by omega
    have h2 : vals.length / 2 < vals.length := Nat.div_lt_self hpos (by norm_num)
    rw [List.get?_eq_get h1, List.get?_eq_get h2]
    rfl

lemma seriesMedian_isSome (s : List (Option ℚ)) (h : s.filterMap id ≠ []) :
    (seriesMedian s).isSome := by
  apply medianOfSorted_isSome
  intro hnil
  apply h
  apply List.eq_nil_of_length_eq_zero
  have := congrArg List.length hnil
  simpa [List.length_insertionSort] using this

/-- `GeneratorClusters.fill_na_heat_rates` (lines 2520-2538): if the series
has any null value, fill the nulls with the series median (pandas
`fillna(NaN)` leaves an all-null series unchanged). -/
def fill_na_heat_rates (s : List (Option ℚ)) : List (Option ℚ) :=
  if s.any (·.isNone) then
    match seriesMedian s with
    | some med => s.map (fun x => some (x.getD med))
    | none => s
  else s

/-- The `heat_rate_mmbtu_mwh` series of the rows of one technology
(`units_model.loc[technology_description == tech, "heat_rate_mmbtu_mwh"]`,
lines 2736-2742). -/
def techSeries (us : List HrUnit) (t : String) : List (Option ℚ) :=
  (us.filter (fun u => u.technology = t)).map (·.heat_rate)

/-- The write-back of one row under the per-technology fill: a null heat
rate becomes the median of the technology's series in `l`. -/
def fill_row (l : List HrUnit) (u : HrUnit) : HrUnit :=
  match u.heat_rate with
  | some _ => u
  | none => { u with heat_rate := seriesMedian (techSeries l u.technology) }

/-- The per-technology fill loop (lines 2735-2743): each technology group's
series is passed through `fill_na_heat_rates` and written back.  The groups
are disjoint and each pass is idempotent, so the loop is equivalent to one
simultaneous pass replacing every null heat rate with the median of its
technology's series (see `fill_na_heat_rates_eq_map_seriesMedian`). -/
def fill_tech_medians (us : List HrUnit) : List HrUnit :=
  us.map (fill_row us)

/-- The full heat-rate imputation block, lines 2709-2743. -/
def process_heat_rates (m : PmHrMap) (us : List HrUnit) : List HrUnit :=
  fill_tech_medians (banded_units m us)

/-- Bridge between the source's series-level `fill_na_heat_rates` and the
pointwise fill used in `fill_tech_medians`: filling a series' nulls with its
median is the pointwise map sending `none` to the series median. -/
lemma fill_na_heat_rates_eq_map_seriesMedian (s : List (Option ℚ)) :
    fill_na_heat_rates s =
      s.map (fun x => match x with
        | some v => some v
        | none => seriesMedian s) := by
  unfold fill_na_heat_rates
  by_cases hnull : s.any (·.isNone) = true
  · simp only [hnull, if_true]
    cases hmed : seriesMedian s with
    | some med =>
      apply List.map_congr_left
      intro x _
      cases x <;> simp [hmed]
    | none =>
      -- when the median is `NaN` the series has no non-null entries
      have hvals : s.filterMap id = [] := by
        by_contra hne
        have := seriesMedian_isSome s hne
        rw [hmed] at this
        simp [Option.isSome] at this
      have hall : ∀ x ∈ s, x = none := by
        intro x hx
        cases x with
        | none => rfl
        | some v =>
          exfalso
          have : v ∈ s.filterMap id := List.mem_filterMap.mpr ⟨some v, hx, rfl⟩
          simp [hvals] at this
      conv_lhs => rw [← List.map_id s]
      apply List.map_congr_left
      intro x hx
      rw [hall x hx]
      rfl
  · simp only [hnull, if_false]
    conv_lhs => rw [← List.map_id s]
    apply List.map_congr_left
    intro x hx
    cases x with
    | some v => rfl
    | none =>
      exfalso
      exact hnull (List.any_eq_true.mpr ⟨none, hx, rfl⟩)

lemma fill_null_from_pm_some (m : PmHrMap) (u : HrUnit) (v : ℚ)
    (h : u.heat_rate = some v) : fill_null_from_pm m u = u := by
  unfold fill_null_from_pm
  rw [h]

lemma fill_null_from_pm_none (m : PmHrMap) (u : HrUnit)
    (h : u.heat_rate = none) :
    fill_null_from_pm m u = { u with heat_rate := pmLookup m (hrKey u) } := by
  unfold fill_null_from_pm
  rw [h]

lemma remap_high_hr_le (m : PmHrMap) (u : HrUnit) (v : ℚ)
    (h : u.heat_rate = some v) (h35 : v ≤ 35) : remap_high_hr m u = u := by
  unfold remap_high_hr
  rw [h]
  exact if_neg (not_lt.mpr h35)

lemma remap_high_hr_none (m : PmHrMap) (u : HrUnit)
    (h : u.heat_rate = none) : remap_high_hr m u = u := by
  unfold remap_high_hr
  rw [h]

lemma remap_high_hr_pm_fixed (m : PmHrMap) (u : HrUnit) :
    remap_high_hr m { u with heat_rate := pmLookup m (hrKey u) }
      = { u with heat_rate := pmLookup m (hrKey u) } := by
  cases hp : pmLookup m (hrKey u) with
  | none => simp [remap_high_hr, hp]
  | some p =>
    by_cases h35 : 35 < p
    · simp only [remap_high_hr, hp, h35, if_true]
      rw [show pmLookup m (hrKey { u with heat_rate := some p })
            = pmLookup m (hrKey u) from rfl, hp]
    · simp [remap_high_hr, hp, h35]

lemma remap_high_hr_gt (m : PmHrMap) (u : HrUnit) (v : ℚ)
    (h : u.heat_rate = some v) (h35 : 35 < v) :
    remap_high_hr m u = { u with heat_rate := pmLookup m (hrKey u) } := by
  unfold remap_high_hr
  rw [h]
  exact if_pos h35

lemma band_heat_rate_keep (u : HrUnit) (v : ℚ) (h : u.heat_rate = some v)
    (hv : ¬((v < 5 ∧ v ≠ 0) ∨ 35 < v)) : band_heat_rate u = u := by
  unfold band_heat_rate
  rw [h]
  exact if_neg hv

lemma band_heat_rate_drop (u : HrUnit) (v : ℚ) (h : u.heat_rate = some v)
    (hv : (v < 5 ∧ v ≠ 0) ∨ 35 < v) :
    band_heat_rate u = { u with heat_rate := none } := by
  unfold band_heat_rate
  rw [h]
  exact if_pos hv

lemma band_heat_rate_none (u : HrUnit) (h : u.heat_rate = none) :
    band_heat_rate u = u := by
  unfold band_heat_rate
  rw [h]

lemma fill_row_some (l : List HrUnit) (u : HrUnit) (v : ℚ)
    (h : u.heat_rate = some v) : fill_row l u = u := by
  unfold fill_row
  rw [h]

lemma fill_row_none (l : List HrUnit) (u : HrUnit) (h : u.heat_rate = none) :
    fill_row l u
      = { u with heat_rate := seriesMedian (techSeries l u.technology) } := by
  unfold fill_row
  rw [h]

lemma banded_units_getElem (m : PmHrMap) (us : List HrUnit) (i : ℕ)
    (u : HrUnit) (hu : us[i]? = some u) :
    (banded_units m us)[i]? = some (impute_row m u) := by
  unfold banded_units
  rw [List.getElem?_map, hu]
  rfl

lemma process_heat_rates_getElem (m : PmHrMap) (us : List HrUnit) (i : ℕ)
    (u : HrUnit) (hu : us[i]? = some u) :
    (process_heat_rates m us)[i]?
      = some (fill_row (banded_units m us) (impute_row m u)) := by
  unfold process_heat_rates fill_tech_medians
  rw [List.getElem?_map, banded_units_getElem m us i u hu]
  rfl

lemma set_self_of_getElem {α : Type} (l : List α) (i : ℕ) (a : α)
    (h : l[i]? = some a) : l.set i a = l := by
  induction l generalizing i with
  | nil => simp at h
  | cons x xs ih =>
    cases i with
    | zero => simp_all
    | succ j =>
      simp only [List.getElem?_cons_succ] at h
      simp [List.set, ih j h]

/-! ## Cluster count dispatch and cluster sizes

Embeds the `num_clusters` reduction (generators.py lines 2871-2880: when a
(region, technology) group has fewer unit-groups than the configured
cluster count, the count is set to the number of unit-groups) and the
`num_units` aggregate (`df.groupby("cluster")["cluster"].count()`,
line 1306).  The k-means call itself (`cluster.KMeans(...).fit`,
lines 2881-2887) is scikit-learn library code outside this repository; it
is modelled by its label assignment, a function from unit-groups to
cluster indices, with its guarantee of non-empty clusters taken as a
hypothesis. -/

/-- Lines 2871-2880: the effective cluster count after the reduction to the
number of available unit-groups. -/
def effective_num_clusters (k n : ℕ) : ℕ :=
  if n < k then n else k

/-- `num_units` of one cluster (line 1306): the number of unit-groups the
label assignment places in that cluster. -/
def num_units_of_cluster {n k : ℕ} (labels : Fin n → Fin k) (c : Fin k) : ℕ :=
  (Finset.univ.filter (fun i => labels i = c)).card

/-! ## Per-cluster aggregation

Embeds `calc_unit_cluster_values` (generators.py lines 1244-1311) over a
list of unit-group rows carrying a 1-based `cluster` label.  `np.average`
with weights is the weighted arithmetic mean; a pandas `groupby(...).agg`
with `"mean"` is the unweighted arithmetic mean over the group. -/

/-- A unit-group row entering `calc_unit_cluster_values`: capacity, minimum
load, (possibly null) heat rate, O&M costs and the cluster label produced
by k-means. -/
structure CRow where
  capacity : ℚ
  minimum_load_mw : ℚ
  heat_rate : Option ℚ
  fixed_om : ℚ
  var_om : ℚ
  cluster : ℕ
deriving Repr, DecidableEq

/-- Lines 1269-1278: rows with a null heat rate are dropped before
aggregation. -/
def drop_null_hr (df : List CRow) : List CRow :=
  df.filter (fun r => r.heat_rate.isSome)

/-- The member unit-groups of one cluster. -/
def cluster_members (df : List CRow) (c : ℕ) : List CRow :=
  (drop_null_hr df).filter (fun r => r.cluster = c)

/-- Unweighted arithmetic mean of a column over a list of rows (pandas
`groupby.agg("mean")`). -/
def colMean (f : CRow → ℚ) (rows : List CRow) : ℚ :=
  (rows.map f).sum / rows.length

/-- `np.average(x, weights=capacity)` (the local `wm` at lines 1266-1267):
the capacity-weighted mean of a column. -/
def wm (f : CRow → ℚ) (rows : List CRow) : ℚ :=
  (rows.map (fun r => r.capacity * f r)).sum / (rows.map (fun r => r.capacity)).sum

/-- The aggregate row `calc_unit_cluster_values` produces for one cluster. -/
structure ClusterAgg where
  cap_size : ℚ
  minimum_load_mw : ℚ
  heat_rate : ℚ
  fixed_om : ℚ
  var_om : ℚ
  min_power : ℚ
  num_units : ℕ
deriving Repr, DecidableEq

/-- `calc_unit_cluster_values` (lines 1244-1311) restricted to one cluster
label: null-heat-rate rows are dropped (lines 1269-1278); capacity and
minimum load aggregate by unweighted mean, heat rate and O&M costs by
capacity-weighted mean (lines 1280-1288); `Min_Power` is the mean minimum
load over the mean capacity (lines 1302-1304); `num_units` is the member
count (line 1306). -/
def calc_unit_cluster_values (df : List CRow) (c : ℕ) : ClusterAgg :=
  let rows := cluster_members df c
  { cap_size := colMean (fun r => r.capacity) rows
    minimum_load_mw := colMean (fun r => r.minimum_load_mw) rows
    heat_rate := wm (fun r => r.heat_rate.getD 0) rows
    fixed_om := wm (fun r => r.fixed_om) rows
    var_om := wm (fun r => r.var_om) rows
    min_power :=
      colMean (fun r => r.minimum_load_mw) rows / colMean (fun r => r.capacity) rows
    num_units := rows.length }

/-! ## Final derived existing capacity

Embeds the finalization of the existing-resource table (generators.py
lines 3000-3003): the results are rounded to three decimals
(`self.results.round(3)`, numpy half-to-even rounding) and
`Existing_Cap_MW` is set to `Cap_size * num_units`. -/

/-- Round half to even (the rounding used by `DataFrame.round`). -/
def roundHalfEven (q : ℚ) : ℤ :=
  if q - ⌊q⌋ < 1 / 2 then ⌊q⌋
  else if (1 : ℚ) / 2 < q - ⌊q⌋ then ⌊q⌋ + 1
  else if ⌊q⌋ % 2 = 0 then ⌊q⌋ else ⌊q⌋ + 1

/-- `DataFrame.round(3)` on one value. -/
def round3 (q : ℚ) : ℚ :=
  (roundHalfEven (q * 1000) : ℚ) / 1000

/-- A row of `self.results` before finalization: the cluster aggregates
renamed to their output columns (lines 2962-2968). -/
structure ResultRow where
  cap_size : ℚ
  heat_rate : ℚ
  min_power : ℚ
  num_units : ℕ
deriving Repr, DecidableEq

/-- A finalized existing-resource row with the derived `Existing_Cap_MW`. -/
structure FinalRow where
  cap_size : ℚ
  heat_rate : ℚ
  min_power : ℚ
  num_units : ℕ
  existing_cap_mw : ℚ
deriving Repr, DecidableEq

/-- Lines 3000-3003: `self.results = self.results.round(3)` followed by
`self.results["Existing_Cap_MW"] = self.results.Cap_size *
self.results.num_units`. -/
def finalize_results (rs : List ResultRow) : List FinalRow :=
  rs.map (fun r =>
    { cap_size := round3 r.cap_size
      heat_rate := round3 r.heat_rate
      min_power := round3 r.min_power
      num_units := r.num_units
      existing_cap_mw := round3 r.cap_size * (r.num_units : ℚ) })

/-! ## Seeded clustering runs and `R_ID` assignment

Embeds the k-means invocation of the clustering loop (generators.py
lines 2881-2891: `cluster.KMeans(n_clusters=..., random_state=6).fit(
preprocessing.StandardScaler().fit_transform(grouped[cluster_cols]))` and
the 1-based label shift) and the sequential resource id of
`create_all_generators` (line 3171:
`np.arange(len(self.all_resources)) + 1`).  The composed scikit-learn
routine — standardize the `{Fixed_OM_Cost_per_MWyr, heat_rate_mmbtu_mwh}`
feature matrix and fit k-means — is library code outside this repository;
it is modelled as an oracle mapping a feature matrix, a cluster count and
a random seed to a list of 0-based labels.  The pipeline always queries
the oracle at the fixed seed `6`. -/

/-- The two-column feature matrix of a (region, technology) group. -/
abbrev Features := List (ℚ × ℚ)

/-- An abstract `StandardScaler + KMeans` routine: feature matrix,
`n_clusters`, `random_state` to 0-based labels. -/
abbrev KMeansOracle := Features → ℕ → ℕ → List ℕ

/-- A unit-group row of a (region, technology) group entering the
clustering loop. -/
structure GroupRow where
  fixed_om : ℚ
  heat_rate : ℚ
deriving Repr, DecidableEq

/-- `grouped[cluster_cols]` (lines 2865-2870): the feature matrix passed to
the scaler and k-means. -/
def features (g : List GroupRow) : Features :=
  g.map (fun r => (r.fixed_om, r.heat_rate))

/-- Lines 2871-2891 for one (region, technology) group: reduce the cluster
count to the group size when needed, run k-means with `random_state=6`, and
shift the labels to 1-based indexing. -/
def cluster_group (km : KMeansOracle) (k : ℕ) (g : List GroupRow) :
    List (GroupRow × ℕ) :=
  let labels := km (features g) (effective_num_clusters k g.length) 6
  g.zip (labels.map (· + 1))

/-- `R_ID` assignment (line 3171): sequential ids from 1 over the
concatenated resource rows. -/
def assign_r_id {α : Type} (rows : List α) : List (α × ℕ) :=
  (rows.zip (List.range rows.length)).map (fun p => (p.1, p.2 + 1))

/-- One clustering run over configured (cluster count, group) pairs
followed by the `R_ID` assignment of `create_all_generators`. -/
def run_clustering_pipeline (km : KMeansOracle) (groups : List (ℕ × List GroupRow)) :
    List (List (GroupRow × ℕ) × ℕ) :=
  assign_r_id (groups.map (fun p => cluster_group km p.1 p.2))

/-! ## Fuel-label assignment errors

Embeds the error paths of `add_fuel_labels` (generators.py
lines 2030-2130): the `KeyError` for a fuel of `tech_fuel_map` that is in
neither `aeo_fuel_scenarios` nor `user_fuel_price` (lines 2067-2073) and
the assertion failure for an AEO-resolved `full_fuel_name` with no price
record in the model year (lines 2108-2116).  The per-entry `Fuel` column
assignments are modelled for the technology-name match; the ATB technology
aliasing sub-loops (lines 2058-2061, 2086-2093, 2101-2107, 2123-2130) and
the CCS loop (lines 2132 onward), which only add further assignments and
raise no errors, are not modelled.  `user_fuel_price` is modelled by the
set of fuel names that have user prices. -/

/-- The two fatal errors `add_fuel_labels` can raise. -/
inductive FuelError where
  /-- Lines 2069-2073: the fuel appears in neither `aeo_fuel_scenarios`
  nor `user_fuel_price`. -/
  | missingFuel (fuel : String)
  /-- Lines 2111-2116: `full_fuel_name` has no price record in the model
  year. -/
  | missingPrice (fuel_name : String) (year : ℤ)
deriving Repr, DecidableEq

/-- The configuration consumed by the fuel-label pass. -/
structure FuelSettings where
  aeo_fuel_scenarios : List (String × String)
  user_fuel_price : List String
  aeo_fuel_region_map : List (String × List String)
  model_year : ℤ
deriving Repr, DecidableEq

/-- A row of the fuel-price table (`self.fuel_prices`). -/
structure PriceRow where
  year : ℤ
  full_fuel_name : String
deriving Repr, DecidableEq

/-- A resource row receiving a `Fuel` label. -/
structure ResRow where
  technology : String
  region : String
  fuel : Option String
deriving Repr, DecidableEq

/-- Dictionary lookup in an association list of strings. -/
def lookupStr (l : List (String × String)) (k : String) : Option String :=
  (l.find? (fun p => p.1 = k)).map (·.2)

/-- `("_").join([aeo_region, scenario, fuel])` (line 2110). -/
def full_fuel_name (aeo_region scenario fuel : String) : String :=
  aeo_region ++ "_" ++ scenario ++ "_" ++ fuel

/-- The price-table query of the assertion at lines 2111-2116:
`fuel_prices.query("year==@model_year & full_fuel_name==@fuel_name")` is
non-empty. -/
def has_price (prices : List PriceRow) (yr : ℤ) (name : String) : Bool :=
  prices.any (fun p => p.year = yr ∧ p.full_fuel_name = name)

/-- `str.rstrip("_")`. -/
def rstripUnderscore (s : String) : String :=
  String.mk ((s.toList.reverse.dropWhile (fun c => c = '_')).reverse)

/-- Lines 2118-2121: assign the resolved AEO fuel name to rows whose
technology equals the map entry and whose region is in the AEO region's
model regions. -/
def assign_aeo_fuel (eia_tech fuel_name : String) (model_regions : List String)
    (df : List ResRow) : List ResRow :=
  df.map (fun r =>
    if r.technology = eia_tech ∧ r.region ∈ model_regions then
      { r with fuel := some fuel_name }
    else r)

/-- Lines 2095-2099: assign a user-priced fuel to rows whose technology
matches the entry case-insensitively after stripping trailing
underscores. -/
def assign_user_fuel (eia_tech fuel : String) (df : List ResRow) : List ResRow :=
  df.map (fun r =>
    if (rstripUnderscore r.technology).toLower = eia_tech.toLower ∧ r.fuel = none then
      { r with fuel := some fuel }
    else r)

/-- The loop over `aeo_fuel_region_map` (lines 2109-2121): for each AEO
region, assert that the resolved fuel name has a price record in the model
year, then assign it. -/
def process_aeo_regions (prices : List PriceRow) (yr : ℤ)
    (eia_tech scenario fuel : String) :
    List (String × List String) → List ResRow → Except FuelError (List ResRow)
  | [], df => .ok df
  | (aeo_region, model_regions) :: rest, df =>
    let name := full_fuel_name aeo_region scenario fuel
    if has_price prices yr name then
      process_aeo_regions prices yr eia_tech scenario fuel rest
        (assign_aeo_fuel eia_tech name model_regions df)
    else .error (.missingPrice name yr)

/-- One entry of the `tech_fuel_map` loop (lines 2046-2130, error and
assignment paths). -/
def process_entry (st : FuelSettings) (prices : List PriceRow)
    (df : List ResRow) (e : String × String) : Except FuelError (List ResRow) :=
  match lookupStr st.aeo_fuel_scenarios e.2 with
  | none =>
    if e.2 ∈ st.user_fuel_price then .ok (assign_user_fuel e.1 e.2 df)
    else .error (.missingFuel e.2)
  | some scenario =>
    process_aeo_regions prices st.model_year e.1 scenario e.2
      st.aeo_fuel_region_map df

/-- `add_fuel_labels` (lines 2007-2130): process the `tech_fuel_map`
entries in order, stopping at the first fatal error. -/
def add_fuel_labels (st : FuelSettings) (prices : List PriceRow) :
    List (String × String) → List ResRow → Except FuelError (List ResRow)
  | [], df => .ok df
  | e :: rest, df =>
    match process_entry st prices df e with
    | .error err => .error err
    | .ok df' => add_fuel_labels st prices rest df'

/-- An entry of `tech_fuel_map` passes all checks: its fuel either has a
user price or resolves through an AEO scenario whose every
region/scenario/fuel name has a price record in the model year. -/
def entry_ok (st : FuelSettings) (prices : List PriceRow) (e : String × String) : Bool :=
  match lookupStr st.aeo_fuel_scenarios e.2 with
  | none => e.2 ∈ st.user_fuel_price
  | some scenario =>
    st.aeo_fuel_region_map.all (fun p =>
      has_price prices st.model_year (full_fuel_name p.1 scenario e.2))

lemma process_aeo_regions_ok (prices : List PriceRow) (yr : ℤ)
    (eia_tech scenario fuel : String) (rm : List (String × List String)) :
    (∀ p ∈ rm, has_price prices yr (full_fuel_name p.1 scenario fuel)) →
    ∀ df, ∃ df', process_aeo_regions prices yr eia_tech scenario fuel rm df = .ok df' := by
  induction rm with
  | nil => intro _ df; exact ⟨df, rfl⟩
  | cons p rest ih =>
    intro h df
    have hp := h p (List.mem_cons_self p rest)
    obtain ⟨df', hdf'⟩ := ih (fun q hq => h q (List.mem_cons_of_mem p hq))
      (assign_aeo_fuel eia_tech (full_fuel_name p.1 scenario fuel) p.2 df)
    refine ⟨df', ?_⟩
    simp only [process_aeo_regions, hp, if_true]
    exact hdf'

lemma process_entry_ok (st : FuelSettings) (prices : List PriceRow)
    (e : String × String) (he : entry_ok st prices e = true) (df : List ResRow) :
    ∃ df', process_entry st prices df e = .ok df' := by
  unfold entry_ok at he
  unfold process_entry
  cases hl : lookupStr st.aeo_fuel_scenarios e.2 with
  | none =>
    rw [hl] at he
    simp only [decide_eq_true_eq] at he
    exact ⟨assign_user_fuel e.1 e.2 df, by simp [he]⟩
  | some scenario =>
    rw [hl] at he
    apply process_aeo_regions_ok
    intro p hp
    exact List.all_eq_true.mp he p hp

lemma add_fuel_labels_append (st : FuelSettings) (prices : List PriceRow)
    (pre rest : List (String × String)) (df : List ResRow)
    (hpre : ∀ e ∈ pre, entry_ok st prices e = true) :
    ∃ df', add_fuel_labels st prices (pre ++ rest) df
        = add_fuel_labels st prices rest df' := by
  induction pre generalizing df with
  | nil => exact ⟨df, rfl⟩
  | cons e pre ih =>
    obtain ⟨df₁, h₁⟩ :=
      process_entry_ok st prices e (hpre e (List.mem_cons_self e pre)) df
    obtain ⟨df', h'⟩ := ih df₁ (fun x hx => hpre x (List.mem_cons_of_mem e hx))
    refine ⟨df', ?_⟩
    rw [List.cons_append]
    have hstep : add_fuel_labels st prices (e :: (pre ++ rest)) df
        = add_fuel_labels st prices (pre ++ rest) df₁ := by
      conv_lhs => unfold add_fuel_labels
      rw [h₁]
    rw [hstep]
    exact h'

lemma process_aeo_regions_error (prices : List PriceRow) (yr : ℤ)
    (eia_tech scenario fuel : String) (rpre : List (String × List String))
    (ar : String) (mrs : List String) (rrest : List (String × List String))
    (hall : ∀ p ∈ rpre,
      has_price prices yr (full_fuel_name p.1 scenario fuel) = true)
    (hfail : has_price prices yr (full_fuel_name ar scenario fuel) = false) :
    ∀ df, process_aeo_regions prices yr eia_tech scenario fuel
        (rpre ++ (ar, mrs) :: rrest) df
      = .error (.missingPrice (full_fuel_name ar scenario fuel) yr) := by
  induction rpre with
  | nil =>
    intro df
    simp only [List.nil_append, process_aeo_regions, hfail]
    rfl
  | cons p rpre ih =>
    intro df
    have hp := hall p (List.mem_cons_self p rpre)
    simp only [List.cons_append, process_aeo_regions, hp, if_true]
    exact ih (fun q hq => hall q (List.mem_cons_of_mem p hq)) _

/-! ## Theorems settling the claims -/

/-- C6: the canceled/retired removal is a partition: for every generator
table and amendment table, the removed and kept rows are disjoint, together
they are a permutation of the original table, so
`len(original) == len(removed) + len(kept)` and the original capacity sum
equals the removed capacity plus the kept capacity; the same holds for the
retired variant. -/
theorem C6_removal_partition (df am : List Gen) :
    (∀ g, g ∈ canceled_rows df am → g ∉ remove_canceled_860m df am)
    ∧ (canceled_rows df am ++ remove_canceled_860m df am).Perm df
    ∧ df.length = (canceled_rows df am).length + (remove_canceled_860m df am).length
    ∧ capSum df = capSum (canceled_rows df am) + capSum (remove_canceled_860m df am)
    ∧ df.length = (retired_rows df am).length + (remove_retired_860m df am).length
    ∧ capSum df = capSum (retired_rows df am) + capSum (remove_retired_860m df am) := by
  refine ⟨?_, ?_, ?_, ?_, ?_, ?_⟩
  · intro g h1 h2
    simp only [canceled_rows, List.mem_filter, decide_eq_true_eq] at h1
    simp only [remove_canceled_860m, List.mem_filter, Bool.not_eq_true',
      decide_eq_false_iff_not] at h2
    exact h2.2 h1.2
  · exact List.filter_append_perm _ df
  · exact (length_filter_add_length_filter_not _ df).symm
  · exact (capSum_filter_add_capSum_filter_not _ df).symm
  · exact (length_filter_add_length_filter_not _ df).symm
  · exact (capSum_filter_add_capSum_filter_not _ df).symm

/-- C9: `remove_retired_860m` and `remove_future_retirements_860m` are
extensionally equal: the two source functions have verbatim-identical
bodies, so the embeddings coincide on every pair of input tables. -/
theorem C9_remove_retired_eq_remove_future (df am : List Gen) :
    remove_retired_860m df am = remove_future_retirements_860m df am := rfl

/-- C10: the active/retired split is not a partition for units with a
missing retirement year: every unit of the (already technology-filtered)
units model whose `retirement_year` is null is selected both by the
clustering-input filter `~(retirement_year <= model_year)` and by the
retired-table filter `~(retirement_year > model_year)`. -/
theorem C10_null_retirement_in_both (techs : List String) (y : ℤ)
    (us : List UnitRow) (u : UnitRow)
    (hu : u ∈ filter_model_techs techs us) (hnull : u.retirement_year = none) :
    u ∈ clustering_input techs y (filter_model_techs techs us)
    ∧ u ∈ retired_units y (filter_model_techs techs us) := by
  have htech : u.technology ∈ techs := by
    have h := List.mem_filter.mp hu
    simpa using h.2
  constructor
  · exact List.mem_filter.mpr ⟨hu, by simp [htech, leOptYear, hnull]⟩
  · exact List.mem_filter.mpr ⟨hu, by simp [gtOptYear, hnull]⟩

/-- Witness for C10 at a concrete input: a single coal unit with a null
retirement year appears in both the clustering input and the retired
table. -/
theorem C10_witness :
    (⟨"coal", none, 100⟩ : UnitRow) ∈
        filter_model_techs ["coal"] [⟨"coal", none, 100⟩]
    ∧ ((⟨"coal", none, 100⟩ : UnitRow) ∈
          clustering_input ["coal"] 2030 (filter_model_techs ["coal"] [⟨"coal", none, 100⟩])
        ∧ (⟨"coal", none, 100⟩ : UnitRow) ∈
          retired_units 2030 (filter_model_techs ["coal"] [⟨"coal", none, 100⟩])) :=
  ⟨by decide, C10_null_retirement_in_both ["coal"] 2030 _ _ (by decide) rfl⟩

/-- C5: in the finalized existing-resource output, every row's
`Existing_Cap_MW` equals its (rounded) `Cap_size` times `num_units`. -/
theorem C5_existing_cap_derived (rs : List ResultRow) (row : FinalRow)
    (hrow : row ∈ finalize_results rs) :
    row.existing_cap_mw = row.cap_size * (row.num_units : ℚ) := by
  obtain ⟨r, _, rfl⟩ := List.mem_map.mp hrow
  rfl

/-- Witness for C5 at a concrete input: a cluster aggregate with
`Cap_size = 10` and three member unit-groups yields
`Existing_Cap_MW = 30 = 10 * 3`. -/
theorem C5_witness :
    (⟨10, 9, 1 / 2, 3, 30⟩ : FinalRow) ∈ finalize_results [⟨10, 9, 1 / 2, 3⟩]
    ∧ (⟨10, 9, 1 / 2, 3, 30⟩ : FinalRow).existing_cap_mw
        = (⟨10, 9, 1 / 2, 3, 30⟩ : FinalRow).cap_size
          * (((⟨10, 9, 1 / 2, 3, 30⟩ : FinalRow).num_units : ℚ)) := by
  have h : finalize_results [(⟨10, 9, 1 / 2, 3⟩ : ResultRow)]
      = [(⟨10, 9, 1 / 2, 3, 30⟩ : FinalRow)] := by
    with_unfolding_all rfl
  have hmem : (⟨10, 9, 1 / 2, 3, 30⟩ : FinalRow) ∈
      finalize_results [(⟨10, 9, 1 / 2, 3⟩ : ResultRow)] := by
    rw [h]; exact List.mem_singleton.mpr rfl
  exact ⟨hmem, C5_existing_cap_derived _ _ hmem⟩

/-- C1: heat-rate banding: for every unit-group row, a heat rate of
exactly 0 is preserved as 0 and never overwritten; a heat rate in `[5, 35]`
is kept unchanged; a heat rate strictly below 5 (other than exact 0) is
reset to missing before the per-technology fallback fill and the output is
the fallback median; and a row with a heat rate strictly above 35 is
processed exactly as if its heat rate were missing, so it is replaced via
the fallback chain. -/
theorem C1_heat_rate_banding (m : PmHrMap) (us : List HrUnit) (i : ℕ)
    (u : HrUnit) (hu : us[i]? = some u) :
    (u.heat_rate = some 0 →
      ((process_heat_rates m us)[i]?).map HrUnit.heat_rate = some (some 0))
    ∧ (∀ v, u.heat_rate = some v → 5 ≤ v → v ≤ 35 →
      ((process_heat_rates m us)[i]?).map HrUnit.heat_rate = some (some v))
    ∧ (∀ v, u.heat_rate = some v → v < 5 → v ≠ 0 →
      ((banded_units m us)[i]?).map HrUnit.heat_rate = some none
      ∧ ((process_heat_rates m us)[i]?).map HrUnit.heat_rate
          = some (seriesMedian (techSeries (banded_units m us) u.technology)))
    ∧ (∀ v, u.heat_rate = some v → 35 < v →
      process_heat_rates m us
        = process_heat_rates m (us.set i { u with heat_rate := none })) := by
  refine ⟨?_, ?_, ?_, ?_⟩
  · intro h0
    have himp : impute_row m u = u := by
      unfold impute_row
      rw [fill_null_from_pm_some m u 0 h0, remap_high_hr_le m u 0 h0 (by norm_num),
        band_heat_rate_keep u 0 h0 (by norm_num)]
    rw [process_heat_rates_getElem m us i u hu, himp, fill_row_some _ u 0 h0]
    simp [h0]
  · intro v hv h5 h35
    have himp : impute_row m u = u := by
      unfold impute_row
      rw [fill_null_from_pm_some m u v hv, remap_high_hr_le m u v hv h35,
        band_heat_rate_keep u v hv
          (not_or.mpr ⟨fun hc => (not_lt.mpr h5) hc.1, not_lt.mpr h35⟩)]
    rw [process_heat_rates_getElem m us i u hu, himp, fill_row_some _ u v hv]
    simp [hv]
  · intro v hv h5 h0
    have himp : impute_row m u = { u with heat_rate := none } := by
      unfold impute_row
      rw [fill_null_from_pm_some m u v hv,
        remap_high_hr_le m u v hv (le_of_lt (lt_trans h5 (by norm_num))),
        band_heat_rate_drop u v hv (Or.inl ⟨h5, h0⟩)]
    constructor
    · rw [banded_units_getElem m us i u hu, himp]
      rfl
    · rw [process_heat_rates_getElem m us i u hu, himp, fill_row_none _ _ rfl]
      rfl
  · intro v hv h35
    have himp : impute_row m { u with heat_rate := none } = impute_row m u := by
      unfold impute_row
      rw [fill_null_from_pm_some m u v hv, remap_high_hr_gt m u v hv h35]
      rw [show fill_null_from_pm m { u with heat_rate := none }
            = { u with heat_rate := pmLookup m (hrKey u) } from
          fill_null_from_pm_none m { u with heat_rate := none } rfl]
      rw [remap_high_hr_pm_fixed m u]
    have hset : banded_units m (us.set i { u with heat_rate := none })
        = banded_units m us := by
      unfold banded_units
      rw [List.map_set, himp,
        set_self_of_getElem _ i _ (by rw [List.getElem?_map, hu]; rfl)]
    unfold process_heat_rates
    rw [hset]

/-- Witness for C1 at a concrete input: a pumped-storage-like unit with
heat rate exactly 0 comes out of the heat-rate processing with heat rate
still exactly 0. -/
theorem C1_witness :
    (([⟨1, "PS", "WAT", "hydro", some 0⟩] : List HrUnit)[0]?
        = some ⟨1, "PS", "WAT", "hydro", some 0⟩)
    ∧ ((process_heat_rates [] [⟨1, "PS", "WAT", "hydro", some 0⟩])[0]?).map
        HrUnit.heat_rate = some (some 0) :=
  ⟨rfl,
   (C1_heat_rate_banding [] [⟨1, "PS", "WAT", "hydro", some 0⟩] 0 _ rfl).1 rfl⟩

/-- C2: heat-rate fallback chain: for a unit-group with no official unit
heat rate, an in-band plant/prime-mover/fuel aggregate (e.g. 10.5) becomes
the output heat rate; when the aggregate is absent, or out of band, the
output is the median of the non-null heat rates of the same-technology
rows at fill time. -/
theorem C2_fallback_chain (m : PmHrMap) (us : List HrUnit) (i : ℕ)
    (u : HrUnit) (hu : us[i]? = some u) (hnull : u.heat_rate = none) :
    (∀ w, pmLookup m (hrKey u) = some w → 5 ≤ w → w ≤ 35 →
      ((process_heat_rates m us)[i]?).map HrUnit.heat_rate = some (some w))
    ∧ (pmLookup m (hrKey u) = none →
      ((process_heat_rates m us)[i]?).map HrUnit.heat_rate
        = some (seriesMedian (techSeries (banded_units m us) u.technology)))
    ∧ (∀ w, pmLookup m (hrKey u) = some w → ((w < 5 ∧ w ≠ 0) ∨ 35 < w) →
      ((process_heat_rates m us)[i]?).map HrUnit.heat_rate
        = some (seriesMedian (techSeries (banded_units m us) u.technology))) := by
  refine ⟨?_, ?_, ?_⟩
  · intro w hw h5 h35
    have himp : impute_row m u = { u with heat_rate := some w } := by
      unfold impute_row
      rw [fill_null_from_pm_none m u hnull,
        show ({ u with heat_rate := pmLookup m (hrKey u) } : HrUnit)
            = { u with heat_rate := some w } by rw [hw],
        remap_high_hr_le m _ w rfl h35]
      exact band_heat_rate_keep _ w rfl
        (not_or.mpr ⟨fun hc => (not_lt.mpr h5) hc.1, not_lt.mpr h35⟩)
    rw [process_heat_rates_getElem m us i u hu, himp, fill_row_some _ _ w rfl]
    rfl
  · intro hw
    have himp : impute_row m u = { u with heat_rate := none } := by
      unfold impute_row
      rw [fill_null_from_pm_none m u hnull,
        show ({ u with heat_rate := pmLookup m (hrKey u) } : HrUnit)
            = { u with heat_rate := none } by rw [hw],
        remap_high_hr_none m _ rfl, band_heat_rate_none _ rfl]
    rw [process_heat_rates_getElem m us i u hu, himp, fill_row_none _ _ rfl]
    rfl
  · intro w hw hband
    have himp : impute_row m u = { u with heat_rate := none } := by
      unfold impute_row
      rw [fill_null_from_pm_none m u hnull, remap_high_hr_pm_fixed m u,
        show ({ u with heat_rate := pmLookup m (hrKey u) } : HrUnit)
            = { u with heat_rate := some w } by rw [hw]]
      exact band_heat_rate_drop _ w rfl hband
    rw [process_heat_rates_getElem m us i u hu, himp, fill_row_none _ _ rfl]
    rfl

/-- Witness for C2 at a concrete input: a unit with no unit-level heat
rate and a matching plant/prime-mover/fuel aggregate of 7 gets output heat
rate 7. -/
theorem C2_witness :
    (([⟨1, "CT", "NG", "gas", none⟩] : List HrUnit)[0]?
        = some ⟨1, "CT", "NG", "gas", none⟩
      ∧ pmLookup [((1, "CT", "NG"), 7)] (hrKey ⟨1, "CT", "NG", "gas", none⟩)
          = some 7
      ∧ (5 : ℚ) ≤ 7 ∧ (7 : ℚ) ≤ 35)
    ∧ ((process_heat_rates [((1, "CT", "NG"), 7)]
          [⟨1, "CT", "NG", "gas", none⟩])[0]?).map HrUnit.heat_rate
        = some (some 7) :=
  ⟨⟨rfl, by decide, by decide, by decide⟩,
   (C2_fallback_chain [((1, "CT", "NG"), 7)] [⟨1, "CT", "NG", "gas", none⟩]
      0 _ rfl rfl).1 7 (by decide) (by decide) (by decide)⟩

/-- C3: cluster partition: with a configured cluster count `k > 0` and `n`
available unit-groups, the effective cluster count is `k` when `k ≤ n` and
is reduced to `n` when `k > n`; for any label assignment covering every
cluster (scikit-learn k-means yields non-empty clusters), every cluster has
`num_units ≥ 1`, the cluster sizes sum to `n`, and in the reduced case
every cluster is a singleton. -/
theorem C3_cluster_partition (k n : ℕ) (hk : 0 < k) (hn : 0 < n)
    (labels : Fin n → Fin (effective_num_clusters k n))
    (hsurj : Function.Surjective labels) :
    (k ≤ n → effective_num_clusters k n = k)
    ∧ (∀ c, 1 ≤ num_units_of_cluster labels c)
    ∧ (∑ c, num_units_of_cluster labels c) = n
    ∧ (n < k → effective_num_clusters k n = n
        ∧ ∀ c, num_units_of_cluster labels c = 1) := by
  have hone : ∀ c, 1 ≤ num_units_of_cluster labels c := by
    intro c
    obtain ⟨i, hi⟩ := hsurj c
    exact Nat.succ_le_of_lt (Finset.card_pos.mpr ⟨i, by simp [hi]⟩)
  have hsum : (∑ c, num_units_of_cluster labels c) = n := by
    have h : (Finset.univ : Finset (Fin n)).card = n := by simp
    exact (Finset.card_eq_sum_card_fiberwise
      (fun x _ => Finset.mem_univ (labels x))).symm.trans h
  refine ⟨?_, hone, hsum, ?_⟩
  · intro hkn
    unfold effective_num_clusters
    rw [if_neg (by omega)]
  · intro hlt
    have heff : effective_num_clusters k n = n := by
      unfold effective_num_clusters
      rw [if_pos hlt]
    refine ⟨heff, ?_⟩
    intro c
    by_contra hne
    have h2 : 2 ≤ num_units_of_cluster labels c := by
      have := hone c
      omega
    have hlt2 : (∑ _c : Fin (effective_num_clusters k n), (1 : ℕ))
        < ∑ c, num_units_of_cluster labels c :=
      Finset.sum_lt_sum (fun i _ => hone i) ⟨c, Finset.mem_univ c, by omega⟩
    rw [hsum] at hlt2
    simp [heff] at hlt2

/-- Witness for C3 at the spec's test scenario: 2 unit-groups with a
configured count of 5 clusters; the identity labeling is surjective, so the
count is reduced to 2 and both clusters are singletons. -/
theorem C3_witness :
    (0 < 5 ∧ 0 < 2
      ∧ Function.Surjective (fun i : Fin 2 => (i : Fin (effective_num_clusters 5 2))))
    ∧ ((5 ≤ 2 → effective_num_clusters 5 2 = 5)
      ∧ (∀ c, 1 ≤ num_units_of_cluster
          (fun i : Fin 2 => (i : Fin (effective_num_clusters 5 2))) c)
      ∧ (∑ c, num_units_of_cluster
          (fun i : Fin 2 => (i : Fin (effective_num_clusters 5 2))) c) = 2
      ∧ (2 < 5 → effective_num_clusters 5 2 = 2
          ∧ ∀ c, num_units_of_cluster
              (fun i : Fin 2 => (i : Fin (effective_num_clusters 5 2))) c = 1)) :=
  ⟨⟨by decide, by decide, by decide⟩,
   C3_cluster_partition 5 2 (by decide) (by decide) _ (by decide)⟩

/-- C4: per-cluster aggregation semantics of `calc_unit_cluster_values`:
capacity and minimum load are unweighted means over the member unit-groups
(stated as `mean * count = sum`), heat rate and fixed/variable O&M are
capacity-weighted means (stated as `wmean * total capacity = weighted
sum`), `num_units` is the member count, and `Min_Power` is the mean minimum
load divided by the mean capacity. -/
theorem C4_cluster_aggregation (df : List CRow) (c : ℕ)
    (hne : cluster_members df c ≠ [])
    (hcap : ((cluster_members df c).map (fun r => r.capacity)).sum ≠ 0) :
    (calc_unit_cluster_values df c).cap_size * ((cluster_members df c).length : ℚ)
        = ((cluster_members df c).map (fun r => r.capacity)).sum
    ∧ (calc_unit_cluster_values df c).minimum_load_mw
          * ((cluster_members df c).length : ℚ)
        = ((cluster_members df c).map (fun r => r.minimum_load_mw)).sum
    ∧ (calc_unit_cluster_values df c).heat_rate
          * ((cluster_members df c).map (fun r => r.capacity)).sum
        = ((cluster_members df c).map
            (fun r => r.capacity * r.heat_rate.getD 0)).sum
    ∧ (calc_unit_cluster_values df c).fixed_om
          * ((cluster_members df c).map (fun r => r.capacity)).sum
        = ((cluster_members df c).map (fun r => r.capacity * r.fixed_om)).sum
    ∧ (calc_unit_cluster_values df c).var_om
          * ((cluster_members df c).map (fun r => r.capacity)).sum
        = ((cluster_members df c).map (fun r => r.capacity * r.var_om)).sum
    ∧ (calc_unit_cluster_values df c).num_units = (cluster_members df c).length
    ∧ (calc_unit_cluster_values df c).min_power
        = (calc_unit_cluster_values df c).minimum_load_mw
          / (calc_unit_cluster_values df c).cap_size := by
  have hlen : ((cluster_members df c).length : ℚ) ≠ 0 := by
    refine Nat.cast_ne_zero.mpr ?_
    intro h
    exact hne (List.eq_nil_of_length_eq_zero h)
  refine ⟨?_, ?_, ?_, ?_, ?_, rfl, rfl⟩
  · exact div_mul_cancel₀ _ hlen
  · exact div_mul_cancel₀ _ hlen
  · exact div_mul_cancel₀ _ hcap
  · exact div_mul_cancel₀ _ hcap
  · exact div_mul_cancel₀ _ hcap

/-- Witness for C4 at a concrete input: a cluster with two unit-groups of
capacities 100 and 300. -/
theorem C4_witness :
    (cluster_members
        [⟨100, 40, some 10, 5000, 2, 1⟩, ⟨300, 120, some 8, 7000, 3, 1⟩] 1 ≠ []
      ∧ ((cluster_members
          [⟨100, 40, some 10, 5000, 2, 1⟩, ⟨300, 120, some 8, 7000, 3, 1⟩] 1).map
            (fun r => r.capacity)).sum ≠ 0)
    ∧ (calc_unit_cluster_values
        [⟨100, 40, some 10, 5000, 2, 1⟩, ⟨300, 120, some 8, 7000, 3, 1⟩] 1).num_units
      = (cluster_members
        [⟨100, 40, some 10, 5000, 2, 1⟩, ⟨300, 120, some 8, 7000, 3, 1⟩] 1).length :=
  ⟨⟨by decide, by with_unfolding_all decide⟩,
   (C4_cluster_aggregation
      [⟨100, 40, some 10, 5000, 2, 1⟩, ⟨300, 120, some 8, 7000, 3, 1⟩] 1
      (by decide) (by with_unfolding_all decide)).2.2.2.2.2.1⟩

/-- C7: determinism under the fixed seed: the clustering pipeline queries
the k-means routine only at `random_state = 6`, so two runs whose k-means
routines agree at seed 6 produce identical cluster labelings and identical
`R_ID` assignments on identical inputs. -/
theorem C7_seed_determinism (km₁ km₂ : KMeansOracle)
    (groups : List (ℕ × List GroupRow))
    (h : ∀ f k, km₁ f k 6 = km₂ f k 6) :
    run_clustering_pipeline km₁ groups = run_clustering_pipeline km₂ groups := by
  unfold run_clustering_pipeline
  congr 1
  apply List.map_congr_left
  intro p _
  unfold cluster_group
  rw [h]

/-- Witness for C7 at a concrete input: two oracles that agree at seed 6
(one of them answering differently at every other seed) give identical
pipeline outputs. -/
theorem C7_witness :
    (∀ f k, (fun (f : Features) (_ _ : ℕ) => List.replicate f.length 0) f k 6
        = (fun (f : Features) (_ s : ℕ) =>
            if s = 6 then List.replicate f.length 0 else [1]) f k 6)
    ∧ run_clustering_pipeline
        (fun (f : Features) (_ _ : ℕ) => List.replicate f.length 0)
        [(2, [⟨1, 10⟩])]
      = run_clustering_pipeline
        (fun (f : Features) (_ s : ℕ) =>
          if s = 6 then List.replicate f.length 0 else [1])
        [(2, [⟨1, 10⟩])] :=
  ⟨fun f k => by simp,
   C7_seed_determinism _ _ [(2, [⟨1, 10⟩])] (fun f k => by simp)⟩

/-- C8: fuel-label configuration errors: in the `tech_fuel_map` pass (all
earlier entries well-configured), an entry whose fuel is in neither
`aeo_fuel_scenarios` nor `user_fuel_price` raises a fatal error naming that
fuel type; and an entry whose fuel resolves through an AEO scenario to a
region/scenario fuel-price series name with no price record for the model
year raises a fatal error naming that fuel name. -/
theorem C8_fuel_label_errors (st : FuelSettings) (prices : List PriceRow)
    (pre : List (String × String)) (t f : String)
    (rest : List (String × String)) (df : List ResRow)
    (hpre : ∀ e ∈ pre, entry_ok st prices e = true) :
    (lookupStr st.aeo_fuel_scenarios f = none → f ∉ st.user_fuel_price →
      add_fuel_labels st prices (pre ++ (t, f) :: rest) df
        = .error (.missingFuel f))
    ∧ (∀ scenario rpre ar mrs rrest,
        lookupStr st.aeo_fuel_scenarios f = some scenario →
        st.aeo_fuel_region_map = rpre ++ (ar, mrs) :: rrest →
        (∀ p ∈ rpre,
          has_price prices st.model_year (full_fuel_name p.1 scenario f) = true) →
        has_price prices st.model_year (full_fuel_name ar scenario f) = false →
        add_fuel_labels st prices (pre ++ (t, f) :: rest) df
          = .error (.missingPrice (full_fuel_name ar scenario f)
              st.model_year)) := by
  obtain ⟨df₁, hdf₁⟩ := add_fuel_labels_append st prices pre ((t, f) :: rest) df hpre
  constructor
  · intro hnone hnuser
    rw [hdf₁]
    have hpe : process_entry st prices df₁ (t, f) = .error (.missingFuel f) := by
      simp only [process_entry]
      rw [hnone]
      simp [hnuser]
    unfold add_fuel_labels
    rw [hpe]
  · intro scenario rpre ar mrs rrest hsc hrm hall hfail
    rw [hdf₁]
    have hpe : process_entry st prices df₁ (t, f)
        = .error (.missingPrice (full_fuel_name ar scenario f) st.model_year) := by
      simp only [process_entry]
      rw [hsc, hrm]
      exact process_aeo_regions_error prices st.model_year t scenario f
        rpre ar mrs rrest hall hfail df₁
    unfold add_fuel_labels
    rw [hpe]

/-- Witness for C8 at a concrete input: a `tech_fuel_map` entry whose fuel
`coal` is in neither `aeo_fuel_scenarios` nor `user_fuel_price` makes the
fuel-label pass fail with an error naming `coal`. -/
theorem C8_witness :
    (∀ e ∈ ([] : List (String × String)),
        entry_ok ⟨[], [], [], 2030⟩ [] e = true)
    ∧ (lookupStr (⟨[], [], [], 2030⟩ : FuelSettings).aeo_fuel_scenarios "coal"
          = none
      ∧ "coal" ∉ (⟨[], [], [], 2030⟩ : FuelSettings).user_fuel_price
      ∧ add_fuel_labels ⟨[], [], [], 2030⟩ []
          (([] : List (String × String)) ++ [("Coal", "coal")]) []
        = .error (.missingFuel "coal")) :=
  ⟨fun e he => absurd he (List.not_mem_nil e),
   rfl, by simp,
   (C8_fuel_label_errors ⟨[], [], [], 2030⟩ [] [] "Coal" "coal" [] []
      (fun e he => absurd he (List.not_mem_nil e))).1 rfl (by simp)⟩

end PowerGenome
